import Mathlib

/-!
Shallow embedding of the financial formula and root-finding engine of
`src/finance_utils.py` (class `FinancialCalculations`), over exact rational
arithmetic (`ℚ`).  Python's numeric routines work on floats; here every
formula is carried over term by term to `ℚ`.  Where a claim is about a
runtime division-by-zero failure, an `Option`-valued variant of the
function mirrors Python's `ZeroDivisionError` (returning `none`); the
plain `ℚ`-valued versions totalise division with Lean's `x / 0 = 0`
convention, which is only ever exercised outside the claims' hypotheses.
-/

namespace FinancialCalculations

/-- `npv(rate, cashflows)`: `sum(cf / (1 + rate) ** i for i, cf in enumerate(cashflows))`
(finance_utils.py line 23). -/
def npv (rate : ℚ) (cashflows : List ℚ) : ℚ :=
  (cashflows.enum.map (fun p => p.2 / (1 + rate) ^ p.1)).sum

/-- Error-aware variant of `npv`: Python's float division `cf / d` raises
`ZeroDivisionError` when `d == 0`, so the sum in `npv` evaluates to a number
exactly when every divisor `(1 + rate) ** i` is nonzero; otherwise the call
fails.  `none` models that failure. -/
def npvE (rate : ℚ) (cashflows : List ℚ) : Option ℚ :=
  if ∀ p ∈ cashflows.enum, (1 + rate) ^ p.1 ≠ 0 then some (npv rate cashflows)
  else none

/-- Inner helper of `irr`: the analytic derivative
`sum(-i * cf / (1 + rate) ** (i + 1) for i, cf in enumerate(cashflows))`
(finance_utils.py line 38). -/
def npv_derivative (rate : ℚ) (cashflows : List ℚ) : ℚ :=
  (cashflows.enum.map (fun p => -(p.1 : ℚ) * p.2 / (1 + rate) ^ (p.1 + 1))).sum

/-- The Newton–Raphson loop of `irr` (finance_utils.py lines 40-52), with the
remaining iteration count (`100` at entry, from `for _ in range(100)`) made an
explicit fuel argument.  Exhausted fuel, or a derivative of magnitude below
`1e-10`, yields `None`. -/
def irrLoop (cashflows : List ℚ) : ℕ → ℚ → Option ℚ
  | 0, _ => none
  | n + 1, rate =>
    let npv_val := npv rate cashflows
    if |npv_val| < 1 / 1000000 then some rate
    else
      let derivative := npv_derivative rate cashflows
      if |derivative| < 1 / 10000000000 then none
      else irrLoop cashflows n (rate - npv_val / derivative)

/-- `irr(cashflows, guess=0.1)` (finance_utils.py lines 26-52).  The Python
default `guess=0.1` is passed explicitly by callers of this embedding. -/
def irr (cashflows : List ℚ) (guess : ℚ) : Option ℚ :=
  irrLoop cashflows 100 guess

/-- The scanning loop of `payback_period` (finance_utils.py lines 69-78):
`for i, cf in enumerate(cashflows[1:], 1)` with the running index `i` and the
running total `cumulative` as explicit arguments. -/
def paybackLoop : List ℚ → ℕ → ℚ → Option ℚ
  | [], _, _ => none
  | cf :: rest, i, cumulative =>
    let cumulative2 := cumulative + cf
    if 0 ≤ cumulative2 then
      if i = 1 then some (i : ℚ)
      else some ((i : ℚ) - 1 + |cumulative2 - cf| / cf)
    else paybackLoop rest (i + 1) cumulative2

/-- `payback_period(cashflows)` (finance_utils.py lines 54-78): `None` when the
list is empty or its first element is `≥ 0`, else scan `cashflows[1:]` from
index 1 with `cumulative` initialised to `cashflows[0]`. -/
def payback_period (cashflows : List ℚ) : Option ℚ :=
  match cashflows with
  | [] => none
  | c0 :: rest => if 0 ≤ c0 then none else paybackLoop rest 1 c0

/-- Result dictionary of `dcf_valuation` (finance_utils.py lines 115-121). -/
structure ValuationResult where
  pv_cashflows : ℚ
  terminal_value : ℚ
  pv_terminal_value : ℚ
  enterprise_value : ℚ
  cashflow_breakdown : List ℚ
deriving Repr, DecidableEq

/-- `dcf_valuation(free_cashflows, terminal_growth_rate, discount_rate, terminal_year=None)`
(finance_utils.py lines 81-121).  Each projected flow is discounted at period
`i + 1`; the terminal value is the Gordon-growth perpetuity on the last flow;
`terminal_year` defaults (`none`) to `len(free_cashflows)`.  Python's
`free_cashflows[-1]` is `getLastD` here (the claims restrict to non-empty
input, where the two agree). -/
def dcf_valuation (free_cashflows : List ℚ) (terminal_growth_rate discount_rate : ℚ)
    (terminal_year : Option ℕ) : ValuationResult :=
  let ty := terminal_year.getD free_cashflows.length
  let pv_cashflows :=
    free_cashflows.enum.map (fun p => p.2 / (1 + discount_rate) ^ (p.1 + 1))
  let terminal_cf := free_cashflows.getLastD 0 * (1 + terminal_growth_rate)
  let terminal_value := terminal_cf / (discount_rate - terminal_growth_rate)
  let pv_terminal_value := terminal_value / (1 + discount_rate) ^ ty
  let enterprise_value := pv_cashflows.sum + pv_terminal_value
  ⟨pv_cashflows.sum, terminal_value, pv_terminal_value, enterprise_value, pv_cashflows⟩

/-- `wacc(cost_of_equity, cost_of_debt, tax_rate, market_value_equity, market_value_debt)`
(finance_utils.py lines 123-149).  Python's float division raises
`ZeroDivisionError` when `total_value == 0`; `none` models that failure. -/
def wacc (cost_of_equity cost_of_debt tax_rate market_value_equity market_value_debt : ℚ) :
    Option ℚ :=
  let total_value := market_value_equity + market_value_debt
  if total_value = 0 then none
  else
    let equity_weight := market_value_equity / total_value
    let debt_weight := market_value_debt / total_value
    some (equity_weight * cost_of_equity + debt_weight * cost_of_debt * (1 - tax_rate))

/-- `present_value(future_value, rate, periods)` (finance_utils.py lines 185-188):
`future_value / (1 + rate) ** periods`, with `periods` an integer as in the
Python signature. -/
def present_value (fv rate : ℚ) (periods : ℤ) : ℚ :=
  fv / (1 + rate) ^ periods

/-- `future_value(present_value, rate, periods)` (finance_utils.py lines 190-193):
`present_value * (1 + rate) ** periods`. -/
def future_value (pv rate : ℚ) (periods : ℤ) : ℚ :=
  pv * (1 + rate) ^ periods

/-- Result dictionary of `bond_price` (finance_utils.py lines 249-256);
`coupon_payment` holds the annualised coupon `coupon_payment * payments_per_year`. -/
structure BondResult where
  bond_price : ℚ
  pv_coupons : ℚ
  pv_face_value : ℚ
  current_yield : ℚ
  duration : ℚ
  coupon_payment : ℚ
deriving Repr, DecidableEq

/-- `bond_price(face_value, coupon_rate, yield_rate, years_to_maturity, payments_per_year=2)`
(finance_utils.py lines 196-256).  The coupon annuity uses
`coupon * (1 - (1 + period_yield) ** -periods) / period_yield` when the period
yield is nonzero, else the zero-yield limit `coupon * periods`; Macaulay
duration is the per-period weighted loop over `t = 1 .. periods` with the face
value added to the final cash flow.  The Python default `payments_per_year=2`
is passed explicitly by callers of this embedding. -/
def bond_price (face_value coupon_rate yield_rate : ℚ) (years_to_maturity : ℕ)
    (payments_per_year : ℕ) : BondResult :=
  let periods := years_to_maturity * payments_per_year
  let coupon_payment := face_value * coupon_rate / (payments_per_year : ℚ)
  let period_yield := yield_rate / (payments_per_year : ℚ)
  let pv_coupons :=
    if period_yield = 0 then coupon_payment * (periods : ℚ)
    else coupon_payment * (1 - (1 + period_yield) ^ (-(periods : ℤ))) / period_yield
  let pv_face_value := face_value / (1 + period_yield) ^ periods
  let bp := pv_coupons + pv_face_value
  let current_yield := coupon_payment * (payments_per_year : ℚ) / bp
  let weighted_time :=
    ((List.range periods).map (fun t0 =>
      let t := t0 + 1
      let cash_flow :=
        if t = periods then coupon_payment + face_value else coupon_payment
      ((t : ℚ) / (payments_per_year : ℚ)) * (cash_flow / (1 + period_yield) ^ t))).sum
  let duration := weighted_time / bp
  ⟨bp, pv_coupons, pv_face_value, current_yield, duration,
    coupon_payment * (payments_per_year : ℚ)⟩

/-- Inner helper of `yield_to_maturity` (finance_utils.py lines 283-287):
`bond_price(face_value, coupon_rate, ytm, years, payments)['bond_price'] - bond_price`,
the quantity driven to zero by the root search.  `bond_price_target` is the
Python parameter `bond_price` (renamed to avoid shadowing the pricing
function). -/
def bond_price_function (bond_price_target face_value coupon_rate : ℚ)
    (years_to_maturity payments_per_year : ℕ) (ytm : ℚ) : ℚ :=
  (bond_price face_value coupon_rate ytm years_to_maturity payments_per_year).bond_price -
    bond_price_target

/-- Inner helper of `yield_to_maturity` (finance_utils.py lines 289-292):
central-difference numerical derivative with step `h = 0.0001`. -/
def bond_price_derivative (bond_price_target face_value coupon_rate : ℚ)
    (years_to_maturity payments_per_year : ℕ) (ytm : ℚ) : ℚ :=
  let h : ℚ := 1 / 10000
  (bond_price_function bond_price_target face_value coupon_rate years_to_maturity
      payments_per_year (ytm + h) -
    bond_price_function bond_price_target face_value coupon_rate years_to_maturity
      payments_per_year (ytm - h)) / (2 * h)

/-- The Newton–Raphson loop of `yield_to_maturity` (finance_utils.py lines
294-310), with the remaining iteration count (`100` at entry) made an explicit
fuel argument.  Exhausted fuel, a derivative of magnitude below `1e-10`, or a
trial `ytm` outside `[-0.5, 1.0]` after the update, all yield `None`. -/
def ytmLoop (bond_price_target face_value coupon_rate : ℚ)
    (years_to_maturity payments_per_year : ℕ) : ℕ → ℚ → Option ℚ
  | 0, _ => none
  | n + 1, ytm =>
    let price_diff := bond_price_function bond_price_target face_value coupon_rate
      years_to_maturity payments_per_year ytm
    if |price_diff| < 1 / 100 then some ytm
    else
      let derivative := bond_price_derivative bond_price_target face_value coupon_rate
        years_to_maturity payments_per_year ytm
      if |derivative| < 1 / 10000000000 then none
      else
        let ytm2 := ytm - price_diff / derivative
        if ytm2 < -(1 / 2) ∨ 1 < ytm2 then none
        else ytmLoop bond_price_target face_value coupon_rate years_to_maturity
          payments_per_year n ytm2

/-- `yield_to_maturity(bond_price, face_value, coupon_rate, years_to_maturity,
payments_per_year=2, guess=0.05)` (finance_utils.py lines 260-310).  The Python
defaults are passed explicitly by callers of this embedding. -/
def yield_to_maturity (bond_price_target face_value coupon_rate : ℚ)
    (years_to_maturity payments_per_year : ℕ) (guess : ℚ) : Option ℚ :=
  ytmLoop bond_price_target face_value coupon_rate years_to_maturity payments_per_year
    100 guess

/-! ## Helper lemmas -/

/-- Summing a function of index and entry over `enumFrom n` is the
corresponding `Finset.range` sum shifted by `n`. -/
lemma sum_map_enumFrom (f : ℕ → ℚ → ℚ) :
    ∀ (C : List ℚ) (n : ℕ),
      ((C.enumFrom n).map (fun p => f p.1 p.2)).sum =
        ∑ i ∈ Finset.range C.length, f (n + i) (C.getD i 0)
  | [], n => by simp
  | c :: C, n => by
    rw [List.enumFrom_cons, List.map_cons, List.sum_cons, sum_map_enumFrom f C (n + 1),
      List.length_cons, Finset.sum_range_succ']
    simp only [List.getD_cons_succ, List.getD_cons_zero, Nat.add_zero]
    rw [add_comm]
    congr 1
    refine Finset.sum_congr rfl (fun i _ => ?_)
    congr 1
    omega

/-- When the running total of `paybackLoop` (entered at index `k` with prior
cumulative `cum`) first becomes non-negative at offset `m`, the loop returns
the code's interpolated value at index `k + m`. -/
lemma paybackLoop_first_nonneg :
    ∀ (rest : List ℚ) (k : ℕ) (cum : ℚ) (m : ℕ),
      m < rest.length →
      (∀ j < m, cum + (rest.take (j + 1)).sum < 0) →
      0 ≤ cum + (rest.take (m + 1)).sum →
      paybackLoop rest k cum =
        (if k + m = 1 then some ((k + m : ℕ) : ℚ)
         else some (((k + m : ℕ) : ℚ) - 1 + |cum + (rest.take m).sum| / rest.getD m 0))
  | [], k, cum, m, hm, _, _ => absurd hm (by simp)
  | cf :: rest, k, cum, 0, hm, hbefore, hat => by
    simp only [List.take_succ_cons, List.take_zero, List.sum_cons, List.sum_nil,
      add_zero] at hat
    simp only [paybackLoop]
    rw [if_pos hat]
    have hc : cum + cf - cf = cum := by ring
    simp only [Nat.add_zero, List.take_zero, List.sum_nil, add_zero,
      List.getD_cons_zero, hc]
  | cf :: rest, k, cum, m + 1, hm, hbefore, hat => by
    simp only [paybackLoop]
    have h0 : cum + cf < 0 := by simpa using hbefore 0 (Nat.succ_pos m)
    rw [if_neg (not_le.mpr h0)]
    have ih := paybackLoop_first_nonneg rest (k + 1) (cum + cf) m (by simpa using hm)
      (fun j hj => by
        have hb := hbefore (j + 1) (by omega)
        simpa [add_assoc] using hb)
      (by simpa [add_assoc] using hat)
    rw [ih]
    have hk : k + 1 + m = k + (m + 1) := by omega
    rw [hk]
    simp [List.take_succ_cons, List.getD_cons_succ, add_assoc]

/-- The `paybackLoop` returns `None` exactly when the running total stays
negative through the remaining flows. -/
lemma paybackLoop_none_iff :
    ∀ (rest : List ℚ) (k : ℕ) (cum : ℚ),
      paybackLoop rest k cum = none ↔
        ∀ m < rest.length, cum + (rest.take (m + 1)).sum < 0
  | [], k, cum => by simp [paybackLoop]
  | cf :: rest, k, cum => by
    simp only [paybackLoop]
    by_cases h0 : 0 ≤ cum + cf
    · rw [if_pos h0]
      constructor
      · intro h
        split_ifs at h
      · intro h
        have h1 := h 0 (by simp)
        simp only [List.take_succ_cons, List.take_zero, List.sum_cons, List.sum_nil,
          add_zero] at h1
        exact absurd h0 (not_le.mpr h1)
    · rw [if_neg h0]
      rw [paybackLoop_none_iff rest (k + 1) (cum + cf)]
      constructor
      · intro h m hm
        cases m with
        | zero => simpa using not_le.mp h0
        | succ m =>
          have hmm := h m (by simpa using hm)
          simpa [add_assoc] using hmm
      · intro h m hm
        have hmm := h (m + 1) (by simpa using hm)
        simpa [add_assoc] using hmm

/-- A `some` result of the `irr` Newton loop passed the `|npv| < 1e-6`
convergence test on exactly the returned rate. -/
lemma irrLoop_some (C : List ℚ) :
    ∀ (fuel : ℕ) (rate ρ : ℚ), irrLoop C fuel rate = some ρ → |npv ρ C| < 1 / 1000000
  | 0, rate, ρ, h => by simp [irrLoop] at h
  | fuel + 1, rate, ρ, h => by
    simp only [irrLoop] at h
    split_ifs at h with h1 h2
    · cases h
      exact h1
    · exact irrLoop_some C fuel _ ρ h

/-! ## Claims -/

/-- C1: for every cashflow series `C` and every initial guess, if
`irr(C, guess)` returns a numeric rate `ρ` (rather than `None`), then
`|npv(ρ, C)| < 1e-6`. -/
theorem irr_root_validity (C : List ℚ) (guess ρ : ℚ) (h : irr C guess = some ρ) :
    |npv ρ C| < 1 / 1000000 :=
  irrLoop_some C 100 guess ρ h

/-- Witness for C1: on the empty series with guess `0.1`, `irr` returns the
guess at once and `npv` there is within the tolerance. -/
theorem irr_root_validity_witness :
    irr [] (1 / 10) = some (1 / 10) ∧ |npv (1 / 10) []| < 1 / 1000000 := by
  have h : irr [] (1 / 10) = some (1 / 10) := by
    show irrLoop [] (99 + 1) (1 / 10) = some (1 / 10)
    rw [irrLoop]
    norm_num [npv]
  exact ⟨h, irr_root_validity [] (1 / 10) (1 / 10) h⟩

/-- C5: for every rate `r ≠ -1` and series `C` of length `n`, `npv r C` is
`Σ_{i < n} C[i] / (1 + r)^i`, with period 0 undiscounted. -/
theorem npv_formula (r : ℚ) (C : List ℚ) (hr : r ≠ -1) :
    npv r C = ∑ i ∈ Finset.range C.length, C.getD i 0 / (1 + r) ^ i := by
  have h := sum_map_enumFrom (fun i cf => cf / (1 + r) ^ i) C 0
  simpa [npv, List.enum] using h

/-- Witness for C5 at `r = 0.1`, `C = [100, 200]`. -/
theorem npv_formula_witness :
    npv (1 / 10) [100, 200] =
      ∑ i ∈ Finset.range ([100, 200] : List ℚ).length,
        ([100, 200] : List ℚ).getD i 0 / (1 + 1 / 10) ^ i :=
  npv_formula (1 / 10) [100, 200] (by norm_num)

/-- C9 counterexample: on the one-element series `[5]`, `npv(-1, ·)` does not
fail (the only divisor is `(1 + -1)^0 = 1`); it returns `5`. -/
theorem npvE_neg_one_singleton : npvE (-1) [(5 : ℚ)] = some 5 := by
  rw [npvE, if_pos]
  · norm_num [npv, List.enum, List.enumFrom]
  · intro p hp
    simp only [List.enum, List.enumFrom, List.mem_cons, List.not_mem_nil, or_false] at hp
    subst hp
    norm_num

/-- C9 (amended): for every cashflow series with at least two elements,
`npv(-1, ·)` produces a division-by-zero failure, since the period-1 divisor
is `(1 + -1)^1 = 0`. -/
theorem npvE_neg_one_eq_none (C : List ℚ) (h : 2 ≤ C.length) : npvE (-1) C = none := by
  rcases C with _ | ⟨a, C1⟩
  · exact absurd h (by decide)
  rcases C1 with _ | ⟨b, rest⟩
  · exact absurd h (by simp)
  rw [npvE, if_neg]
  intro hall
  have hmem : ((1 : ℕ), b) ∈ (a :: b :: rest).enum := by
    simp [List.enum, List.enumFrom]
  have h1 := hall (1, b) hmem
  simp at h1

/-- Witness for the amended C9 at `C = [1, 2]`. -/
theorem npvE_neg_one_eq_none_witness : npvE (-1) [(1 : ℚ), 2] = none :=
  npvE_neg_one_eq_none [(1 : ℚ), 2] (by decide)

/-- C2: when the cumulative sum first reaches `≥ 0` at 1-based period index
`i`, `payback_period` returns `1` for `i = 1` and otherwise
`(i - 1) + |cumulative before period i| / cashflows[i]`; in particular
`payback_period [-1000, 400, 400, 400] = 2.5`. -/
theorem payback_period_interpolation (C : List ℚ) (i : ℕ)
    (h1 : 1 ≤ i) (h2 : i < C.length)
    (hbefore : ∀ j < i, (C.take (j + 1)).sum < 0)
    (hat : 0 ≤ (C.take (i + 1)).sum) :
    payback_period C =
      (if i = 1 then some 1
       else some ((i : ℚ) - 1 + |(C.take i).sum| / C.getD i 0)) ∧
    payback_period [-1000, 400, 400, 400] = some (5 / 2) := by
  constructor
  · rcases C with _ | ⟨c0, rest⟩
    · simp at h2
    · have hc0 : c0 < 0 := by simpa using hbefore 0 (by omega)
      simp only [payback_period]
      rw [if_neg (not_le.mpr hc0)]
      obtain ⟨m, rfl⟩ : ∃ m, i = m + 1 := ⟨i - 1, by omega⟩
      have key := paybackLoop_first_nonneg rest 1 c0 m (by simpa using h2)
        (fun j hj => by
          have hb := hbefore (j + 1) (by omega)
          simpa [add_assoc] using hb)
        (by simpa [add_assoc] using hat)
      rw [key]
      have hk : 1 + m = m + 1 := by omega
      rw [hk]
      rcases Nat.eq_zero_or_pos m with hm | hm
      · subst hm
        norm_num
      · rw [if_neg (by omega), if_neg (by omega)]
        simp only [List.take_succ_cons, List.sum_cons, List.getD_cons_succ]
  · have key := paybackLoop_first_nonneg [400, 400, 400] 1 (-1000) 2 (by norm_num)
      (fun j hj => by
        interval_cases j <;> norm_num [List.take_succ_cons])
      (by norm_num [List.take_succ_cons])
    simp only [payback_period]
    rw [if_neg (by norm_num), key]
    norm_num [List.take_succ_cons]

/-- Witness for C2 at `C = [-1000, 400, 400, 400]`, `i = 3`: the interpolated
value is `2 + 200/400 = 2.5`. -/
theorem payback_period_interpolation_witness :
    payback_period [-1000, 400, 400, 400] = some (5 / 2) :=
  (payback_period_interpolation [-1000, 400, 400, 400] 3 (by norm_num) (by simp)
    (by
      intro j hj
      interval_cases j <;> norm_num [List.take_succ_cons])
    (by norm_num [List.take_succ_cons])).2

/-- C3: `payback_period` returns `None` exactly when the series is empty, or
its first element is `≥ 0`, or the cumulative sum stays below `0` through
every period; it returns a number in all other cases. -/
theorem payback_period_none_iff (C : List ℚ) :
    payback_period C = none ↔
      C = [] ∨ 0 ≤ C.headI ∨ ∀ j < C.length, (C.take (j + 1)).sum < 0 := by
  rcases C with _ | ⟨c0, rest⟩
  · simp [payback_period]
  · simp only [payback_period]
    by_cases h0 : 0 ≤ c0
    · rw [if_pos h0]
      simp [h0]
    · rw [if_neg h0]
      rw [paybackLoop_none_iff]
      constructor
      · intro h
        refine Or.inr (Or.inr ?_)
        intro j hj
        cases j with
        | zero => simpa using not_le.mp h0
        | succ m =>
          have hm := h m (by simpa using hj)
          simpa [add_assoc] using hm
      · intro h m hm
        rcases h with h | h | h
        · exact absurd h (by simp)
        · exact absurd h (by simpa using h0)
        · have hj := h (m + 1) (by simpa using hm)
          simpa [add_assoc] using hj

/-- Witness for C3: `[-5, 1]` never recovers, so the result is `None`. -/
theorem payback_period_none_iff_witness : payback_period [(-5 : ℚ), 1] = none :=
  (payback_period_none_iff [(-5 : ℚ), 1]).mpr (Or.inr (Or.inr (by
    intro j hj
    simp only [List.length_cons, List.length_nil] at hj
    interval_cases j <;> norm_num [List.take_succ_cons])))

/-- C6: for every non-empty free-cashflow series `F` and rates `g < r` with
`r ≠ -1`, the `ValuationResult` of `dcf_valuation` (at the default terminal
year) satisfies `enterprise_value = pv_cashflows + pv_terminal_value`. -/
theorem dcf_enterprise_value_invariant (F : List ℚ) (g r : ℚ)
    (hne : F ≠ []) (hgr : g < r) (hr : r ≠ -1) :
    (dcf_valuation F g r none).enterprise_value =
      (dcf_valuation F g r none).pv_cashflows +
        (dcf_valuation F g r none).pv_terminal_value := rfl

/-- Witness for C6 at `F = [1]`, `g = 0`, `r = 0.1`. -/
theorem dcf_enterprise_value_invariant_witness :
    (dcf_valuation [1] 0 (1 / 10) none).enterprise_value =
      (dcf_valuation [1] 0 (1 / 10) none).pv_cashflows +
        (dcf_valuation [1] 0 (1 / 10) none).pv_terminal_value :=
  dcf_enterprise_value_invariant [1] 0 (1 / 10) (by simp) (by norm_num) (by norm_num)

/-- C7: when the coupon rate equals the yield rate (and the per-period yield
is not `-1`), the bond prices exactly at par: the `bond_price` field equals
the face value, for all positive `N` (years) and `k` (payments per year). -/
theorem bond_price_at_par (F c y : ℚ) (N k : ℕ)
    (hN : 1 ≤ N) (hk : 1 ≤ k) (hcy : c = y) (hpy : y / (k : ℚ) ≠ -1) :
    (bond_price F c y N k).bond_price = F := by
  subst hcy
  have hk0 : (k : ℚ) ≠ 0 := Nat.cast_ne_zero.mpr (by omega)
  simp only [bond_price]
  by_cases h0 : c / (k : ℚ) = 0
  · have hc : c = 0 := by
      rcases div_eq_zero_iff.mp h0 with h | h
      · exact h
      · exact absurd h hk0
    subst hc
    simp
  · rw [if_neg h0]
    have hc : c ≠ 0 := fun hcc => h0 (by simp [hcc])
    have h1 : (1 : ℚ) + c / k ≠ 0 := fun hcontra => hpy (by linarith)
    have h2 : ((1 : ℚ) + c / k) ^ (N * k) ≠ 0 := pow_ne_zero _ h1
    rw [zpow_neg, zpow_natCast]
    have e1 : F * c / (k : ℚ) * (1 - ((1 + c / (k : ℚ)) ^ (N * k))⁻¹) / (c / (k : ℚ)) =
        F * (1 - ((1 + c / (k : ℚ)) ^ (N * k))⁻¹) := by
      rw [div_eq_iff (div_ne_zero hc hk0)]
      ring
    rw [e1, div_eq_mul_inv]
    ring

/-- Witness for C7: `bond_price(1000, 0.05, 0.05, 1, 2)` prices at `1000`. -/
theorem bond_price_at_par_witness :
    (bond_price 1000 (1 / 20) (1 / 20) 1 2).bond_price = 1000 :=
  bond_price_at_par 1000 (1 / 20) (1 / 20) 1 2 (by norm_num) (by norm_num) rfl
    (by norm_num)

/-- C8: `wacc` returns `E/(E+D) * cost_of_equity + D/(E+D) * cost_of_debt * (1 - tax)`
whenever `E + D ≠ 0`, fails with a division-by-zero error when `E + D = 0`,
and in particular `wacc(0.12, 0.06, 0.25, 800, 200) = 0.105`. -/
theorem wacc_formula :
    (∀ ce cd t E D : ℚ, E + D ≠ 0 →
        wacc ce cd t E D =
          some (E / (E + D) * ce + D / (E + D) * cd * (1 - t))) ∧
    (∀ ce cd t E D : ℚ, E + D = 0 → wacc ce cd t E D = none) ∧
    wacc (12 / 100) (6 / 100) (25 / 100) 800 200 = some (105 / 1000) := by
  refine ⟨fun ce cd t E D h => ?_, fun ce cd t E D h => ?_, ?_⟩
  · rw [wacc, if_neg h]
  · rw [wacc, if_pos h]
  · rw [wacc]
    norm_num

/-- Witness for C8: the formula at `(0.12, 0.06, 0.25, 800, 200)` and the
failure at `E + D = 0`. -/
theorem wacc_formula_witness :
    wacc (12 / 100) (6 / 100) (25 / 100) 800 200 =
      some ((800 : ℚ) / (800 + 200) * (12 / 100) +
        200 / (800 + 200) * (6 / 100) * (1 - 25 / 100)) ∧
    wacc 1 1 1 2 (-2) = none :=
  ⟨wacc_formula.1 (12 / 100) (6 / 100) (25 / 100) 800 200 (by norm_num),
   wacc_formula.2.1 1 1 1 2 (-2) (by norm_num)⟩

/-- A `some` result of the `yield_to_maturity` Newton loop passed the
`|price_diff| < 0.01` convergence test on exactly the returned ytm. -/
lemma ytmLoop_some (bpt F c : ℚ) (yrs k : ℕ) :
    ∀ (fuel : ℕ) (y v : ℚ),
      ytmLoop bpt F c yrs k fuel y = some v →
      |bond_price_function bpt F c yrs k v| < 1 / 100
  | 0, y, v, h => by simp [ytmLoop] at h
  | fuel + 1, y, v, h => by
    simp only [ytmLoop] at h
    split_ifs at h with h1 h2 h3
    · cases h
      exact h1
    · exact ytmLoop_some bpt F c yrs k fuel _ v h

/-- C4: `yield_to_maturity` returns `None` when the numerical derivative's
magnitude falls below `1e-10`, when the updated trial ytm leaves `[-0.5, 1.0]`,
or when the 100 iterations run out; and any numeric value it returns satisfies
`|bond_price(ytm).bond_price - bond_price_target| < 0.01`. -/
theorem yield_to_maturity_conditions :
    (∀ (bpt F c : ℚ) (yrs k : ℕ) (g v : ℚ),
        yield_to_maturity bpt F c yrs k g = some v →
        |(bond_price F c v yrs k).bond_price - bpt| < 1 / 100) ∧
    (∀ (bpt F c : ℚ) (yrs k : ℕ) (y : ℚ), ytmLoop bpt F c yrs k 0 y = none) ∧
    (∀ (bpt F c : ℚ) (yrs k : ℕ) (n : ℕ) (y : ℚ),
        ¬|bond_price_function bpt F c yrs k y| < 1 / 100 →
        |bond_price_derivative bpt F c yrs k y| < 1 / 10000000000 →
        ytmLoop bpt F c yrs k (n + 1) y = none) ∧
    (∀ (bpt F c : ℚ) (yrs k : ℕ) (n : ℕ) (y : ℚ),
        ¬|bond_price_function bpt F c yrs k y| < 1 / 100 →
        ¬|bond_price_derivative bpt F c yrs k y| < 1 / 10000000000 →
        (y - bond_price_function bpt F c yrs k y / bond_price_derivative bpt F c yrs k y
            < -(1 / 2) ∨
          1 < y - bond_price_function bpt F c yrs k y /
            bond_price_derivative bpt F c yrs k y) →
        ytmLoop bpt F c yrs k (n + 1) y = none) := by
  refine ⟨fun bpt F c yrs k g v h => ytmLoop_some bpt F c yrs k 100 g v h,
    fun bpt F c yrs k y => rfl,
    fun bpt F c yrs k n y h1 h2 => ?_,
    fun bpt F c yrs k n y h1 h2 h3 => ?_⟩
  · simp only [ytmLoop]
    rw [if_neg h1, if_pos h2]
  · simp only [ytmLoop]
    rw [if_neg h1, if_neg h2, if_pos h3]

/-- Witness for C4: a par bond converging at the initial guess; a stalled
derivative on a zero-maturity bond (constant price function); and a range
exit when the target price forces the update below `-0.5`. -/
theorem yield_to_maturity_conditions_witness :
    (yield_to_maturity 100 100 0 1 1 0 = some 0 ∧
      |(bond_price 100 0 0 1 1).bond_price - 100| < 1 / 100) ∧
    ytmLoop 100 100 0 1 1 0 (1 / 20) = none ∧
    ytmLoop 0 100 0 0 1 1 0 = none ∧
    ytmLoop 400 100 0 1 1 1 0 = none := by
  have hconv : yield_to_maturity 100 100 0 1 1 0 = some 0 := by
    show ytmLoop 100 100 0 1 1 (99 + 1) 0 = some 0
    rw [ytmLoop]
    norm_num [bond_price_function, bond_price]
  refine ⟨⟨hconv, yield_to_maturity_conditions.1 100 100 0 1 1 0 0 hconv⟩,
    yield_to_maturity_conditions.2.1 100 100 0 1 1 (1 / 20),
    yield_to_maturity_conditions.2.2.1 0 100 0 0 1 0 0
      (by norm_num [bond_price_function, bond_price])
      (by norm_num [bond_price_derivative, bond_price_function, bond_price]),
    yield_to_maturity_conditions.2.2.2 400 100 0 1 1 0 0
      (by norm_num [bond_price_function, bond_price])
      (by norm_num [bond_price_derivative, bond_price_function, bond_price, abs_lt])
      (Or.inl (by norm_num [bond_price_derivative, bond_price_function, bond_price]))⟩

/-- C10: for every value `x`, rate `r ≠ -1` and integer period count `n`,
`future_value` and `present_value` are exact mutual inverses. -/
theorem pv_fv_round_trip (x r : ℚ) (n : ℤ) (hr : r ≠ -1) :
    future_value (present_value x r n) r n = x ∧
    present_value (future_value x r n) r n = x := by
  have h1 : (1 : ℚ) + r ≠ 0 := fun hcontra => hr (by linarith)
  have h2 : ((1 : ℚ) + r) ^ n ≠ 0 := zpow_ne_zero n h1
  constructor
  · rw [future_value, present_value, div_mul_cancel₀ _ h2]
  · rw [present_value, future_value, mul_div_cancel_right₀ _ h2]

/-- Witness for C10 at `x = 7`, `r = 1`, `n = 2`. -/
theorem pv_fv_round_trip_witness :
    future_value (present_value 7 1 2) 1 2 = 7 ∧
    present_value (future_value 7 1 2) 1 2 = 7 :=
  pv_fv_round_trip 7 1 2 (by norm_num)

end FinancialCalculations
